import Mathlib

/-!
Shallow embedding of the elevator dispatch simulator
(`src/Elevator.ts`, `src/ElevatorSystem.ts`) and proofs about it.

Floors, ids, costs and times are JavaScript numbers used only at integral
values, so they are embedded as `Int`.  `Math.abs` is `|·|` on `Int`.
`Array.prototype.sort()` without a comparator sorts by the decimal string
rendering of the numbers (UTF-16 code-unit order); with the comparator
`(a, b) => b - a` it sorts numerically descending.  Both are embedded as an
insertion sort over the corresponding boolean "may come before" relation.
-/

namespace Elevators

/-- The `TravelDirection` union type: `'Up' | 'Down'`. -/
inductive TravelDirection where
  | up
  | down
deriving DecidableEq, Repr, Inhabited

/-- The `ElevatorTravelDirection` union type: `TravelDirection | 'None'`. -/
inductive ElevatorTravelDirection where
  | up
  | down
  | none
deriving DecidableEq, Repr, Inhabited

/-- Inclusion of `TravelDirection` into `ElevatorTravelDirection` (in the
source both are string unions, so this inclusion is implicit). -/
def TravelDirection.asCarDirection : TravelDirection → ElevatorTravelDirection
  | .up => .up
  | .down => .down

/-- The opposite direction, `d === 'Up' ? 'Down' : 'Up'` in the source. -/
def TravelDirection.other : TravelDirection → TravelDirection
  | .up => .down
  | .down => .up

/-- The constant `Elevator.BOARDING_TIME` (2 ticks). -/
def BOARDING_TIME : Int := 2

/-- Decimal digit character codes of `n`, most significant first; the first
argument is fuel bounding the number of digits (`n` itself is always
enough). -/
def natDecimalCodes : Nat → Nat → List Nat
  | 0, _ => []
  | fuel + 1, n =>
    if n = 0 then [] else natDecimalCodes fuel (n / 10) ++ [48 + n % 10]

/-- UTF-16 code units of the JavaScript decimal rendering of a natural
number (digit `d` has code `48 + d`). -/
def jsNatCodes (n : Nat) : List Nat := if n = 0 then [48] else natDecimalCodes n n

/-- UTF-16 code units of the JavaScript decimal rendering of an integer
(code 45 is the minus sign). -/
def jsNumberCodes (i : Int) : List Nat :=
  if i < 0 then 45 :: jsNatCodes (-i).toNat else jsNatCodes i.toNat

/-- Lexicographic order on code-unit sequences — JavaScript's `<` on
strings. -/
def codesLt : List Nat → List Nat → Bool
  | [], [] => false
  | [], _ :: _ => true
  | _ :: _, [] => false
  | a :: as, b :: bs => if a < b then true else if b < a then false else codesLt as bs

/-- The comparison used by `Array.prototype.sort()` with no comparator:
elements are compared as strings. `jsDefaultSortLe a b` means `a` may be
placed before `b`. -/
def jsDefaultSortLe (a b : Int) : Bool := ! codesLt (jsNumberCodes b) (jsNumberCodes a)

/-- The comparison induced by the comparator `(a, b) => b - a`: numerically
descending. -/
def descendingLe (a b : Int) : Bool := decide (b ≤ a)

/-- Insert into a list sorted by `le`. -/
def insertSorted (le : Int → Int → Bool) (x : Int) : List Int → List Int
  | [] => [x]
  | y :: ys => if le x y then x :: y :: ys else y :: insertSorted le x ys

/-- Insertion sort by `le`; a stable sort, like `Array.prototype.sort`. -/
def insertionSortBy (le : Int → Int → Bool) : List Int → List Int
  | [] => []
  | x :: xs => insertSorted le x (insertionSortBy le xs)

/-- Embeds `jobs.sort()` — JavaScript's default (string-comparing) sort. -/
def jsDefaultSort (l : List Int) : List Int := insertionSortBy jsDefaultSortLe l

/-- Embeds `jobs.sort((a, b) => b - a)` — numerically descending sort. -/
def sortDescending (l : List Int) : List Int := insertionSortBy descendingLe l

/-- State of one `Elevator` instance. -/
structure Elevator where
  id : Int
  floorCount : Int
  currentFloor : Int
  jobsUp : List Int
  jobsDown : List Int
  travelDirection : ElevatorTravelDirection
  boardingCountdown : Int
deriving DecidableEq, Repr, Inhabited

/-- Embeds `new Elevator(id, floorCount, log, currentFloor)` with no jobs and no
travel direction supplied (the only constructor forms the system uses). -/
def mkElevator (id floorCount currentFloor : Int) : Elevator :=
  { id := id, floorCount := floorCount, currentFloor := currentFloor,
    jobsUp := [], jobsDown := [], travelDirection := .none,
    boardingCountdown := 0 }

/-- Accessor for `this._jobs[direction]`. -/
def Elevator.jobs (e : Elevator) : TravelDirection → List Int
  | .up => e.jobsUp
  | .down => e.jobsDown

/-- Replace `this._jobs[direction]`. -/
def Elevator.setJobs (e : Elevator) : TravelDirection → List Int → Elevator
  | .up, l => { e with jobsUp := l }
  | .down, l => { e with jobsDown := l }

/-- The loop body of `_travelTimeInDirection` over the consecutive pairs of
`stops = [fromFloor, ...jobs]`: `p` is `stops[i]`, the list argument holds
`stops[i+1..]`.  The source accumulates into a mutable `time`; here the same
total is built up on the way out of the recursion. -/
def sweepLoop (toFloor : Int) (shouldAttemptToStop : Bool) : Int → List Int → Int × Bool
  | _, [] => (0, false)
  | p, q :: rest =>
    if shouldAttemptToStop ∧ min p q ≥ toFloor ∧ max p q ≤ toFloor then
      (|p - toFloor|, true)
    else
      let r := sweepLoop toFloor shouldAttemptToStop q rest
      (|p - toFloor| + BOARDING_TIME + r.1, r.2)

/-- Embeds `_travelTimeInDirection(fromFloor, toFloor, direction, shouldAttemptToStop)`;
the pair is `{ time, stopOnTheWay }`. -/
def Elevator.travelTimeInDirection (e : Elevator) (fromFloor toFloor : Int)
    (direction : TravelDirection) (shouldAttemptToStop : Bool) : Int × Bool :=
  sweepLoop toFloor shouldAttemptToStop fromFloor (e.jobs direction)

/-- Embeds `_lastStopForDirection(direction)`. -/
def Elevator.lastStopForDirection (e : Elevator) (direction : TravelDirection) : Option Int :=
  (e.jobs direction).getLast?

/-- Body of `getTimeToFulfillRequest` when `travelDirection` is not `'None'`;
`td` is the value of `this._travelDirection`.  (The source also assigns
`simulatedFloor = this._lastStopForDirection(otherDirection) ?? ...` before
the final fallback, but never reads that value.) -/
def Elevator.getTimeWhenMoving (e : Elevator) (toFloor : Int)
    (direction td : TravelDirection) : Int :=
  let result := e.boardingCountdown
  let tryCurrentDirection :=
    e.travelTimeInDirection e.currentFloor toFloor td (td == direction)
  let result := result + tryCurrentDirection.1
  if tryCurrentDirection.2 then result
  else
    let otherDirection := td.other
    let simulatedFloor := (e.lastStopForDirection td).getD e.currentFloor
    let tryOtherDirection :=
      e.travelTimeInDirection simulatedFloor toFloor otherDirection (otherDirection == direction)
    let result := result + tryOtherDirection.1
    if tryOtherDirection.2 then result
    else result + |toFloor - e.currentFloor|

/-- Embeds `getTimeToFulfillRequest(toFloor, direction)`. -/
def Elevator.getTimeToFulfillRequest (e : Elevator) (toFloor : Int)
    (direction : TravelDirection) : Int :=
  match e.travelDirection with
  | .none => |toFloor - e.currentFloor|
  | .up => e.getTimeWhenMoving toFloor direction .up
  | .down => e.getTimeWhenMoving toFloor direction .down

/-- Embeds `goToFloor(toFloor)`; a thrown `Error` is `Except.error`. -/
def Elevator.goToFloor (e : Elevator) (toFloor : Int) : Except String Elevator :=
  if toFloor < 1 ∨ toFloor > e.floorCount then
    .error "toFloor must be between 1 and floorCount"
  else
    let direction : ElevatorTravelDirection :=
      if toFloor = e.currentFloor then e.travelDirection
      else if toFloor > e.currentFloor then .up else .down
    match direction with
    | .none => .ok e
    | .up =>
      .ok { e with jobsUp := jsDefaultSort (e.jobsUp ++ [toFloor]),
                   travelDirection :=
                     if e.travelDirection = .none then .up else e.travelDirection }
    | .down =>
      .ok { e with jobsDown := sortDescending (e.jobsDown ++ [toFloor]),
                   travelDirection :=
                     if e.travelDirection = .none then .down else e.travelDirection }

/-- The movement half of `Elevator.tick` (the code after the boarding block),
for a concrete `travelDirection` value `td`. -/
def Elevator.moveStep (e : Elevator) (td : TravelDirection) : Elevator :=
  match e.jobs td with
  | [] => e
  | j0 :: _ =>
    let f :=
      if e.currentFloor < j0 then e.currentFloor + 1
      else if j0 < e.currentFloor then e.currentFloor - 1
      else e.currentFloor
    if f = j0 then
      { e.setJobs td ((e.jobs td).dropWhile (fun x => f == x)) with
        currentFloor := f, boardingCountdown := BOARDING_TIME }
    else { e with currentFloor := f }

/-- Embeds `Elevator.tick()`.  (The source method returns no value.) -/
def Elevator.tick (e : Elevator) : Elevator :=
  if 0 < e.boardingCountdown then
    let e1 := { e with boardingCountdown := e.boardingCountdown - 1 }
    if e1.boardingCountdown = 0 ∧ e.travelDirection ≠ .none then
      let otherDirection : TravelDirection :=
        if e.travelDirection = .up then .down else .up
      if e.jobs otherDirection = [] then { e1 with travelDirection := .none }
      else { e1 with travelDirection := otherDirection.asCarDirection }
    else e1
  else
    match e.travelDirection with
    | .none => e
    | .up => e.moveStep .up
    | .down => e.moveStep .down

/-- Embeds `moveCloserToFloor(floor)`. -/
def Elevator.moveCloserToFloor (e : Elevator) (floor : Int) : Elevator :=
  if e.travelDirection ≠ .none then e
  else if floor = e.currentFloor then e
  else { e with currentFloor :=
          e.currentFloor + (if floor > e.currentFloor then 1 else -1) }

/-- Embeds `hold()`. -/
def Elevator.hold (e : Elevator) : Elevator :=
  { e with boardingCountdown := BOARDING_TIME }

/-- The `ElevatorRequest` record type `{ floor, direction }`. -/
structure ElevatorRequest where
  floor : Int
  direction : TravelDirection
deriving DecidableEq, Repr, Inhabited

/-- One entry of `ElevatorSystemState.elevatorsCurrentFloors`:
`{ id, floor }`. -/
structure ElevatorIdFloor where
  id : Int
  floor : Int
deriving DecidableEq, Repr, Inhabited

/-- The `ElevatorSystemState` snapshot record type. -/
structure ElevatorSystemState where
  floorCount : Int
  elevatorsCurrentFloors : List ElevatorIdFloor
  time : Int
  requests : List ElevatorRequest
deriving DecidableEq, Repr, Inhabited

/-- State of an `ElevatorSystem` instance. -/
structure ElevatorSystem where
  floorCount : Int
  elevators : List Elevator
  requests : List ElevatorRequest
  time : Int
deriving DecidableEq, Repr, Inhabited

/-- Embeds `new ElevatorSystem(floorCount, elevatorCount)`; thrown `Error`s are
`Except.error`.  `elevatorCount` is a count, so it is embedded as `Nat`. -/
def ElevatorSystem.create (floorCount : Int) (elevatorCount : Nat) :
    Except String ElevatorSystem :=
  if elevatorCount < 1 then .error "elevatorCount must be 1 or greater"
  else if floorCount < 1 then .error "floorCount must be 1 or greater"
  else
    .ok { floorCount := floorCount,
          elevators := (List.range elevatorCount).map
            (fun i => mkElevator ((i : Int) + 1) floorCount 1),
          requests := [], time := 0 }

/-- Embeds `ElevatorSystem.fromSavedState(state)`: construct with the recorded
floor count and car count, then replace every car with an idle car at the
recorded `{ id, floor }` and copy `time` and `requests`. -/
def ElevatorSystem.fromSavedState (state : ElevatorSystemState) :
    Except String ElevatorSystem :=
  match ElevatorSystem.create state.floorCount state.elevatorsCurrentFloors.length with
  | .error msg => .error msg
  | .ok result =>
    .ok { result with
          time := state.time,
          elevators := state.elevatorsCurrentFloors.map
            (fun e => mkElevator e.id state.floorCount e.floor),
          requests := state.requests }

/-- Embeds `callElevator(toFloor, direction)`: appends to `_requests` (the source
performs no validation here). -/
def ElevatorSystem.callElevator (s : ElevatorSystem) (toFloor : Int)
    (direction : TravelDirection) : ElevatorSystem :=
  { s with requests := s.requests ++ [{ floor := toFloor, direction := direction }] }

/-- Embeds the getter `currentState()`. -/
def ElevatorSystem.currentState (s : ElevatorSystem) : ElevatorSystemState :=
  { elevatorsCurrentFloors :=
      s.elevators.map (fun e => { id := e.id, floor := e.currentFloor }),
    floorCount := s.floorCount,
    time := s.time,
    requests := s.requests }

/-- Mutation of the first list element satisfying `p` (the object returned by
`this._elevators.find`). -/
def updateFirst (p : Elevator → Bool) (f : Elevator → Except String Elevator) :
    List Elevator → Except String (List Elevator)
  | [] => .error "No elevator was found with elevatorId"
  | e :: es =>
    if p e then
      match f e with
      | .error msg => .error msg
      | .ok e1 => .ok (e1 :: es)
    else
      match updateFirst p f es with
      | .error msg => .error msg
      | .ok es1 => .ok (e :: es1)

/-- Embeds `ElevatorSystem.goToFloor(elevatorId, toFloor)`. -/
def ElevatorSystem.goToFloor (s : ElevatorSystem) (elevatorId toFloor : Int) :
    Except String ElevatorSystem :=
  match updateFirst (fun e => e.id == elevatorId) (fun e => e.goToFloor toFloor)
      s.elevators with
  | .error msg => .error msg
  | .ok es => .ok { s with elevators := es }

/-- The selection `costs.sort((a, b) => a.cost - b.cost)` then `costs[0]`:
the sort is stable and ascending, so
`costs[0]` is the first fleet-order car achieving the minimum cost.  This
returns that car's index together with its cost. -/
def selectBest (floor : Int) (direction : TravelDirection) :
    List Elevator → Nat × Int
  | [] => (0, 0)
  | [e] => (0, e.getTimeToFulfillRequest floor direction)
  | e :: e1 :: es =>
    let s := selectBest floor direction (e1 :: es)
    let c := e.getTimeToFulfillRequest floor direction
    if c ≤ s.2 then (0, c) else (s.1 + 1, s.2)

/-- In-place mutation of the car at index `i` (a no-op when `i` is out of
range, which the source never reaches: `selectBest` yields an in-range
index on the nonempty fleets the constructor allows). -/
def updateAt : List Elevator → Nat → (Elevator → Elevator) → List Elevator
  | [], _, _ => []
  | e :: es, 0, f => f e :: es
  | e :: es, i + 1, f => e :: updateAt es i f

/-- The nudge half of the matching loop body: if the winning car (index
`bi`) is idle and its id is not in `moved`
(`moved.every((m) => m !== costs[0].elevator.id)`), move it one floor
toward the request's floor and record its id in `moved`. -/
def nudgeStep (es1 : List Elevator) (moved : List Int) (fl : Int) (bi : Nat) :
    List Elevator × List Int :=
  let best := es1.getD bi default
  if best.travelDirection = .none ∧ best.id ∉ moved then
    (updateAt es1 bi (fun e => e.moveCloserToFloor fl), moved ++ [best.id])
  else
    (es1, moved)

/-- One iteration of the request-matching loop body in
`ElevatorSystem.tick`, for one request `r`: fulfill (remove the request and
`hold()` the winning car) when the minimal cost is 0, then the nudge check.
Returns the updated fleet, the updated `moved` list, and whether the
request stays pending. -/
def matchingStep (es : List Elevator) (moved : List Int) (r : ElevatorRequest) :
    List Elevator × List Int × Bool :=
  let sel := selectBest r.floor r.direction es
  let fulfilled := sel.2 = 0
  let es1 := if fulfilled then updateAt es sel.1 Elevator.hold else es
  let nudged := nudgeStep es1 moved r.floor sel.1
  (nudged.1, nudged.2, ¬ fulfilled)

/-- The request-matching loop of `ElevatorSystem.tick`: `splice(i, 1)`
followed by `i--` makes the loop continue with the next pending request, so
the loop is recursion over the request list that drops fulfilled requests. -/
def matchingPass : List Elevator → List Int → List ElevatorRequest →
    List Elevator × List Int × List ElevatorRequest
  | es, moved, [] => (es, moved, [])
  | es, moved, r :: rest =>
    let step := matchingStep es moved r
    let tail := matchingPass step.1 step.2.1 rest
    (tail.1, tail.2.1, if step.2.2 then r :: tail.2.2 else tail.2.2)

/-- One iteration of the loop in `ElevatorSystem.tick`.  `Elevator.tick()`
returns no value, so the `didMove` test in the source never adds an id to
`moved`; the matching pass therefore always starts from an empty `moved`
list. -/
def ElevatorSystem.tickOnce (s : ElevatorSystem) : ElevatorSystem :=
  let es := s.elevators.map Elevator.tick
  let pass := matchingPass es [] s.requests
  { s with time := s.time + 1, elevators := pass.1, requests := pass.2.2 }

/-- Embeds `tick(ticks)`. -/
def ElevatorSystem.tick (s : ElevatorSystem) : Nat → ElevatorSystem
  | 0 => s
  | n + 1 => (s.tickOnce).tick n

/-! Specification-side definitions, used to compare the code's estimator
with the specified one, and concrete fixture states. -/

/-- The specified "can stop along the way" test: `toFloor` lies in the
closed interval `[min p q, max p q]` between consecutive simulated
positions `p` and `q`. -/
def specStopOnTheWay (p q toFloor : Int) : Prop :=
  min p q ≤ toFloor ∧ toFloor ≤ max p q

instance (p q toFloor : Int) : Decidable (specStopOnTheWay p q toFloor) :=
  inferInstanceAs (Decidable (_ ∧ _))

/-- The specified no-opportunity sweep cost: distance between each pair of
consecutive stops, plus one `BOARDING_TIME` penalty per queued stop. -/
def specSweepCost : Int → List Int → Int
  | _, [] => 0
  | p, q :: rest => |p - q| + BOARDING_TIME + specSweepCost q rest

/-- A car at floor 1 sweeping `Up` with one queued stop at floor 5. -/
def movingUpCar : Elevator :=
  { id := 1, floorCount := 10, currentFloor := 1, jobsUp := [5], jobsDown := [],
    travelDirection := .up, boardingCountdown := 0 }

/-- A fresh car with `floorCount = 10` at floor 1. -/
def tenFloorCar : Elevator := mkElevator 1 10 1

/-- The system `new ElevatorSystem(10, 1)`. -/
def oneCarSystem : ElevatorSystem :=
  ((ElevatorSystem.create 10 1).toOption).getD default

/-- A car with both job queues empty whose boarding countdown is about to
expire while it still has a committed direction (the state reached one tick
after a car arrives at its last queued stop). -/
def boardingCar : Elevator :=
  { id := 1, floorCount := 10, currentFloor := 2, jobsUp := [], jobsDown := [],
    travelDirection := .up, boardingCountdown := 1 }

/-- A system holding `boardingCar` and no pending requests. -/
def boardingSystem : ElevatorSystem :=
  { floorCount := 10, elevators := [boardingCar], requests := [], time := 0 }

/-- A concrete snapshot value with two cars and one pending request. -/
def savedStateFixture : ElevatorSystemState :=
  { floorCount := 10,
    elevatorsCurrentFloors := [{ id := 1, floor := 3 }, { id := 2, floor := 7 }],
    time := 5,
    requests := [{ floor := 4, direction := .up }] }

/-! Theorems. -/

/-- Claim C1: the sweep of `_travelTimeInDirection` is claimed to recognise a
pickup-on-the-way whenever `toFloor` lies in `[min p q, max p q]` for
consecutive simulated positions `p`, `q`.  The code's test
`lower >= toFloor && higher <= toFloor` has its comparisons reversed, so for
the car sweeping `Up` from floor 1 toward its queued stop 5 the candidate
floor 3, although inside `[1, 5]` with a matching direction, is not
recognised: the sweep reports no stop on the way and the full estimate is 6
instead of the on-the-way distance 2. -/
theorem sweep_rejects_interior_pickup :
    specStopOnTheWay 1 5 3 ∧
    (movingUpCar.travelTimeInDirection 1 3 .up true).2 = false ∧
    movingUpCar.getTimeToFulfillRequest 3 .up = 6 := by decide

/-- Claim C2: with no pickup opportunity, the sweep cost is claimed to be the
sum of distances between consecutive stops plus one `BOARDING_TIME` per
queued stop (`specSweepCost`).  The code instead accumulates
`|stops[i] - toFloor|` for every pair: for the car at floor 1 with queued
stop 5 and target floor 10 the code's sweep yields 11, while the specified
cost is `|1 - 5| + 2 = 6`. -/
theorem sweep_cost_mismatch :
    (movingUpCar.travelTimeInDirection 1 10 .up true) = (11, false) ∧
    specSweepCost 1 (movingUpCar.jobs .up) = 6 ∧ (11 : Int) ≠ 6 := by decide

/-- Claim C3: the `Up` job queue is claimed to be numerically non-decreasing
after every `goToFloor`.  The source sorts it with the default
`Array.prototype.sort()`, which compares decimal string renderings, so after
`goToFloor(2)` then `goToFloor(10)` on a fresh 10-floor car the queue is
`[10, 2]` — not non-decreasing. -/
theorem up_queue_not_ascending :
    (((tenFloorCar.goToFloor 2).toOption.bind
        fun e => (e.goToFloor 10).toOption).map Elevator.jobsUp)
      = some [10, 2] ∧
    ¬ ((10 : Int) ≤ 2) := by decide

/-- Claim C5: `callElevator` is claimed to raise a `RangeError` for floors
outside `[1, floorCount]`.  The source performs no validation: calling with
floor 0 on a 10-floor system raises nothing, appends `{0, Down}` to the
pending requests, and touches no car. -/
theorem callElevator_no_validation :
    (oneCarSystem.callElevator 0 .down).requests
      = [{ floor := 0, direction := .down }] ∧
    (oneCarSystem.callElevator 0 .down).elevators = oneCarSystem.elevators ∧
    oneCarSystem.floorCount = 10 := by decide

/-- Claim C4: `currentFloor` is claimed to stay in `[1, floorCount]` under
arbitrary public calls.  Because `callElevator` does not validate its floor,
the matching pass nudges the idle car at floor 1 one floor toward the
out-of-range call floor 0, moving it to floor 0 — outside `[1, 10]`. -/
theorem car_leaves_building :
    ((((oneCarSystem.callElevator 0 .down).tickOnce).elevators.getD 0
        default).currentFloor) = 0 ∧
    oneCarSystem.floorCount = 10 ∧
    ¬ ((1 : Int) ≤ 0) := by decide

/-- Claim C6: for an idle car (`travelDirection = None`) the estimate for any
floor and direction is `|toFloor - currentFloor|`; in particular it is 0 when
the car is already at the requested floor. -/
theorem idle_estimate_is_distance (e : Elevator) (toFloor : Int)
    (d : TravelDirection) (h : e.travelDirection = .none) :
    e.getTimeToFulfillRequest toFloor d = |toFloor - e.currentFloor| ∧
    (toFloor = e.currentFloor → e.getTimeToFulfillRequest toFloor d = 0) := by
  have hmain : e.getTimeToFulfillRequest toFloor d = |toFloor - e.currentFloor| := by
    unfold Elevator.getTimeToFulfillRequest
    rw [h]
  refine ⟨hmain, fun hf => ?_⟩
  rw [hmain, hf, sub_self, abs_zero]

/-- Witness for C6: a concrete idle car at floor 7 estimates floor 7 at 0. -/
theorem idle_estimate_is_distance_witness :
    (mkElevator 1 10 7).getTimeToFulfillRequest 7 .up
      = |(7 : Int) - (mkElevator 1 10 7).currentFloor| ∧
    ((7 : Int) = (mkElevator 1 10 7).currentFloor →
      (mkElevator 1 10 7).getTimeToFulfillRequest 7 .up = 0) :=
  idle_estimate_is_distance (mkElevator 1 10 7) 7 .up (by decide)

/-- Claim C7: `matchingStep` picks its car with `selectBest`, the embedding
of the stable sort `costs.sort((a, b) => a.cost - b.cost)` followed by
`costs[0]`: the selected index is in range, its estimate is the returned
minimum, no car has a smaller estimate, and every car strictly earlier in
construction order has a strictly larger estimate — so among cars sharing
the minimal estimate the earliest one is chosen. -/
theorem fleet_selection_minimal (floor : Int) (d : TravelDirection) :
    ∀ (es : List Elevator), es ≠ [] →
      (selectBest floor d es).1 < es.length ∧
      (es.getD (selectBest floor d es).1 default).getTimeToFulfillRequest floor d
        = (selectBest floor d es).2 ∧
      (∀ j, j < es.length →
        (selectBest floor d es).2
          ≤ (es.getD j default).getTimeToFulfillRequest floor d) ∧
      (∀ j, j < (selectBest floor d es).1 →
        (selectBest floor d es).2
          < (es.getD j default).getTimeToFulfillRequest floor d) := by
  intro es
  induction es with
  | nil => intro h; exact absurd rfl h
  | cons e tail ih =>
    intro _
    cases tail with
    | nil =>
      refine ⟨by simp [selectBest], by simp [selectBest], ?_, ?_⟩
      · intro j hj
        have hj0 : j = 0 := by
          simpa [Nat.lt_one_iff] using hj
        subst hj0
        simp [selectBest]
      · intro j hj
        simp [selectBest] at hj
    | cons e1 tail1 =>
      have ih' := ih (by simp)
      by_cases hc :
          e.getTimeToFulfillRequest floor d ≤ (selectBest floor d (e1 :: tail1)).2
      · have hsel : selectBest floor d (e :: e1 :: tail1)
            = (0, e.getTimeToFulfillRequest floor d) := by
          simp [selectBest, hc]
        refine ⟨by rw [hsel]; simp, by rw [hsel]; simp, ?_, ?_⟩
        · intro j hj
          rw [hsel]
          cases j with
          | zero => simp
          | succ j' =>
            have hj' : j' < (e1 :: tail1).length := by
              simpa [Nat.succ_lt_succ_iff] using hj
            have := ih'.2.2.1 j' hj'
            calc e.getTimeToFulfillRequest floor d
                ≤ (selectBest floor d (e1 :: tail1)).2 := hc
              _ ≤ ((e1 :: tail1).getD j' default).getTimeToFulfillRequest floor d := this
        · intro j hj
          rw [hsel] at hj
          simp at hj
      · have hlt : (selectBest floor d (e1 :: tail1)).2
            < e.getTimeToFulfillRequest floor d := lt_of_not_le hc
        have hsel : selectBest floor d (e :: e1 :: tail1)
            = ((selectBest floor d (e1 :: tail1)).1 + 1,
               (selectBest floor d (e1 :: tail1)).2) := by
          simp [selectBest, hc]
        refine ⟨?_, ?_, ?_, ?_⟩
        · rw [hsel]
          simpa [Nat.succ_lt_succ_iff] using ih'.1
        · rw [hsel]
          simpa using ih'.2.1
        · intro j hj
          rw [hsel]
          cases j with
          | zero => simpa using le_of_lt hlt
          | succ j' =>
            have hj' : j' < (e1 :: tail1).length := by
              simpa [Nat.succ_lt_succ_iff] using hj
            simpa using ih'.2.2.1 j' hj'
        · intro j hj
          rw [hsel]
          rw [hsel] at hj
          cases j with
          | zero => simpa using hlt
          | succ j' =>
            have hj' : j' < (selectBest floor d (e1 :: tail1)).1 := by
              simpa [Nat.succ_lt_succ_iff] using hj
            simpa using ih'.2.2.2 j' hj'

/-- Witness for C7: two idle cars both at floor 1 (equal estimates) for a
call at floor 5 — the selection is index 0, the car earliest in
construction order, with the minimal estimate 4. -/
theorem fleet_selection_minimal_witness :
    (selectBest 5 .up [mkElevator 1 10 1, mkElevator 2 10 1]).1
        < [mkElevator 1 10 1, mkElevator 2 10 1].length ∧
    (([mkElevator 1 10 1, mkElevator 2 10 1].getD
        (selectBest 5 .up [mkElevator 1 10 1, mkElevator 2 10 1]).1
        default).getTimeToFulfillRequest 5 .up)
      = (selectBest 5 .up [mkElevator 1 10 1, mkElevator 2 10 1]).2 ∧
    (∀ j, j < [mkElevator 1 10 1, mkElevator 2 10 1].length →
      (selectBest 5 .up [mkElevator 1 10 1, mkElevator 2 10 1]).2
        ≤ ([mkElevator 1 10 1, mkElevator 2 10 1].getD j
            default).getTimeToFulfillRequest 5 .up) ∧
    (∀ j, j < (selectBest 5 .up [mkElevator 1 10 1, mkElevator 2 10 1]).1 →
      (selectBest 5 .up [mkElevator 1 10 1, mkElevator 2 10 1]).2
        < ([mkElevator 1 10 1, mkElevator 2 10 1].getD j
            default).getTimeToFulfillRequest 5 .up) :=
  fleet_selection_minimal 5 .up [mkElevator 1 10 1, mkElevator 2 10 1] (by decide)

/-- Counterexample to claim C8 as stated: `boardingSystem` has no pending
requests and no queued jobs, yet one tick changes the car's
`travelDirection` (its boarding countdown expires and, the opposite queue
being empty, the direction is cleared to `None`). -/
theorem tick_changes_direction_counterexample :
    boardingSystem.requests = [] ∧
    (∀ e ∈ boardingSystem.elevators, e.jobsUp = [] ∧ e.jobsDown = []) ∧
    ((boardingSystem.tickOnce).elevators.getD 0 default).travelDirection ≠
      ((boardingSystem.elevators.getD 0 default)).travelDirection := by decide

/-- A car with both queues empty never changes floor in `Elevator.tick` (the
boarding branch never moves; the movement branch finds no job). -/
theorem tick_floor_of_no_jobs (e : Elevator) (h1 : e.jobsUp = [])
    (h2 : e.jobsDown = []) : (e.tick).currentFloor = e.currentFloor := by
  unfold Elevator.tick
  by_cases hcd : 0 < e.boardingCountdown
  · rw [if_pos hcd]
    dsimp only
    split
    · split
      · split <;> rfl
      · split <;> rfl
    · rfl
  · rw [if_neg hcd]
    cases hdir : e.travelDirection with
    | none => rfl
    | up => simp [Elevator.moveStep, Elevator.jobs, h1]
    | down => simp [Elevator.moveStep, Elevator.jobs, h2]

/-- A car with both queues empty and no boarding countdown is a fixed point
of `Elevator.tick`. -/
theorem tick_fixed_of_no_jobs_cd0 (e : Elevator) (h1 : e.jobsUp = [])
    (h2 : e.jobsDown = []) (h3 : e.boardingCountdown = 0) : e.tick = e := by
  unfold Elevator.tick
  rw [h3]
  rw [if_neg (lt_irrefl 0)]
  cases hdir : e.travelDirection with
  | none => rfl
  | up => simp [Elevator.moveStep, Elevator.jobs, h1]
  | down => simp [Elevator.moveStep, Elevator.jobs, h2]

/-- Pointwise congruence for an observation `g` through `List.map f` and
`getD` (the out-of-range side reads `default` on both lists). -/
theorem getD_map_congr {α : Type} (f : Elevator → Elevator) (g : Elevator → α)
    (l : List Elevator) (hl : ∀ e ∈ l, g (f e) = g e) :
    ∀ j : Nat, g ((l.map f).getD j default) = g (l.getD j default) := by
  induction l with
  | nil => intro j; rfl
  | cons e es ih =>
    intro j
    cases j with
    | zero =>
      simpa using hl e (List.mem_cons_self e es)
    | succ j' =>
      simp only [List.map_cons, List.getD_cons_succ]
      exact ih (fun x hx => hl x (List.mem_cons_of_mem _ hx)) j'

/-- Claim C8 (amended): a tick of a system with no pending requests and no
queued jobs leaves every car's `currentFloor` unchanged, and — provided
every car's boarding countdown is 0 — every car's `travelDirection` as
well.  (Without the countdown condition the direction can change, see the
counterexample: an expiring countdown clears the direction to `None`.) -/
theorem tick_no_input_preserves_cars (s : ElevatorSystem)
    (hr : s.requests = [])
    (hj : ∀ e ∈ s.elevators, e.jobsUp = [] ∧ e.jobsDown = []) :
    (∀ j : Nat, ((s.tickOnce).elevators.getD j default).currentFloor
        = (s.elevators.getD j default).currentFloor) ∧
    ((∀ e ∈ s.elevators, e.boardingCountdown = 0) →
      ∀ j : Nat, ((s.tickOnce).elevators.getD j default).travelDirection
        = (s.elevators.getD j default).travelDirection) := by
  have hel : (s.tickOnce).elevators = s.elevators.map Elevator.tick := by
    simp [ElevatorSystem.tickOnce, hr, matchingPass]
  constructor
  · intro j
    rw [hel]
    exact getD_map_congr Elevator.tick (fun e => e.currentFloor) s.elevators
      (fun e he => tick_floor_of_no_jobs e (hj e he).1 (hj e he).2) j
  · intro hcd j
    rw [hel]
    refine getD_map_congr Elevator.tick (fun e => e.travelDirection) s.elevators
      ?_ j
    intro e he
    rw [tick_fixed_of_no_jobs_cd0 e (hj e he).1 (hj e he).2 (hcd e he)]

/-- Witness for the amended C8 at a fresh one-car system. -/
theorem tick_no_input_preserves_cars_witness :
    oneCarSystem.requests = [] ∧
    (∀ e ∈ oneCarSystem.elevators, e.jobsUp = [] ∧ e.jobsDown = []) ∧
    ((∀ j : Nat, ((oneCarSystem.tickOnce).elevators.getD j default).currentFloor
        = (oneCarSystem.elevators.getD j default).currentFloor) ∧
     ((∀ e ∈ oneCarSystem.elevators, e.boardingCountdown = 0) →
      ∀ j : Nat, ((oneCarSystem.tickOnce).elevators.getD j default).travelDirection
        = (oneCarSystem.elevators.getD j default).travelDirection)) :=
  ⟨rfl, by decide, tick_no_input_preserves_cars oneCarSystem rfl (by decide)⟩

/-- Reading back `{ id, floor }` from the car built by `fromSavedState` from
an `{ id, floor }` entry is the identity. -/
theorem map_mkElevator_readback (fc : Int) (l : List ElevatorIdFloor) :
    ((l.map (fun p => mkElevator p.id fc p.floor)).map
      (fun e => ({ id := e.id, floor := e.currentFloor } : ElevatorIdFloor))) = l := by
  induction l with
  | nil => rfl
  | cons p ps ih =>
    simp only [List.map_cons]
    rw [ih]
    rfl

/-- Claim C9: for a snapshot with a positive floor count and at least one
car entry, `fromSavedState` then `currentState` reproduces the snapshot
exactly — same `floorCount`, `time`, requests in order, and `(id, floor)`
pairs in order. -/
theorem fromSavedState_roundTrip (st : ElevatorSystemState)
    (h1 : 1 ≤ st.floorCount) (h2 : st.elevatorsCurrentFloors ≠ []) :
    (ElevatorSystem.fromSavedState st).map ElevatorSystem.currentState
      = .ok st := by
  obtain ⟨fc, ecf, t, reqs⟩ := st
  have hlen : ¬ ecf.length < 1 := by
    cases ecf with
    | nil => exact absurd rfl h2
    | cons a l => simp
  have hfc : ¬ fc < 1 := not_lt.mpr h1
  unfold ElevatorSystem.fromSavedState ElevatorSystem.create
  rw [if_neg hlen, if_neg hfc]
  simp only [Except.map]
  unfold ElevatorSystem.currentState
  simp only
  rw [map_mkElevator_readback]

/-- Witness for C9 at a concrete two-car snapshot. -/
theorem fromSavedState_roundTrip_witness :
    (ElevatorSystem.fromSavedState savedStateFixture).map
        ElevatorSystem.currentState = .ok savedStateFixture :=
  fromSavedState_roundTrip savedStateFixture (by decide) (by decide)

/-- Lemma: `updateAt` preserves length. -/
theorem updateAt_length (f : Elevator → Elevator) :
    ∀ (l : List Elevator) (i : Nat), (updateAt l i f).length = l.length := by
  intro l
  induction l with
  | nil => intro i; rfl
  | cons e es ih =>
    intro i
    cases i with
    | zero => rfl
    | succ i' => simp [updateAt, ih i']

/-- Reading `updateAt l i f` at `j` gives the old entry, or — exactly at an
in-range `i` — the updated entry. -/
theorem getD_updateAt (f : Elevator → Elevator) :
    ∀ (l : List Elevator) (i j : Nat),
      (updateAt l i f).getD j default = l.getD j default ∨
      (j = i ∧ i < l.length ∧
        (updateAt l i f).getD j default = f (l.getD j default)) := by
  intro l
  induction l with
  | nil => intro i j; left; rfl
  | cons e es ih =>
    intro i j
    cases i with
    | zero =>
      cases j with
      | zero => exact Or.inr ⟨rfl, by simp, rfl⟩
      | succ j' => left; rfl
    | succ i' =>
      cases j with
      | zero => left; rfl
      | succ j' =>
        rcases ih i' j' with h | ⟨hji, hlen, h⟩
        · left
          simpa [updateAt] using h
        · right
          refine ⟨by omega, by simpa using Nat.succ_lt_succ hlen, ?_⟩
          simpa [updateAt] using h

/-- Lemma: `hold` changes only the boarding countdown. -/
theorem hold_projections (e : Elevator) :
    (e.hold).id = e.id ∧ (e.hold).travelDirection = e.travelDirection ∧
    (e.hold).currentFloor = e.currentFloor :=
  ⟨rfl, rfl, rfl⟩

/-- Lemma: `moveCloserToFloor` never changes the car's id. -/
theorem moveCloser_id (e : Elevator) (fl : Int) :
    (e.moveCloserToFloor fl).id = e.id := by
  unfold Elevator.moveCloserToFloor
  split
  · rfl
  · split <;> rfl

/-- Lemma: `moveCloserToFloor` never changes the travel direction. -/
theorem moveCloser_dir (e : Elevator) (fl : Int) :
    (e.moveCloserToFloor fl).travelDirection = e.travelDirection := by
  unfold Elevator.moveCloserToFloor
  split
  · rfl
  · split <;> rfl

/-- Lemma: `moveCloserToFloor` leaves the floor unchanged unless the car is idle,
and moves at most one floor. -/
theorem moveCloser_floor (e : Elevator) (fl : Int) :
    (e.moveCloserToFloor fl).currentFloor = e.currentFloor ∨
    (e.travelDirection = .none ∧
      |(e.moveCloserToFloor fl).currentFloor - e.currentFloor| ≤ 1) := by
  unfold Elevator.moveCloserToFloor
  split
  · exact Or.inl rfl
  · rename_i hdir
    split
    · exact Or.inl rfl
    · refine Or.inr ⟨not_not.mp hdir, ?_⟩
      dsimp only
      split <;> simp

/-- Lemma: `moveStep` never changes the travel direction. -/
theorem moveStep_dir (e : Elevator) (td : TravelDirection) :
    (e.moveStep td).travelDirection = e.travelDirection := by
  unfold Elevator.moveStep
  split
  · rfl
  · dsimp only
    split_ifs <;> cases td <;> rfl

/-- Lemma: `moveStep` moves at most one floor. -/
theorem moveStep_floor (e : Elevator) (td : TravelDirection) :
    |(e.moveStep td).currentFloor - e.currentFloor| ≤ 1 := by
  unfold Elevator.moveStep
  split
  · simp
  · dsimp only
    split_ifs <;> simp

/-- One `Elevator.tick` moves at most one floor, and a car that moved still
has a committed (non-`None`) direction afterwards. -/
theorem tick_floor_spec (e : Elevator) :
    |(e.tick).currentFloor - e.currentFloor| ≤ 1 ∧
    ((e.tick).currentFloor ≠ e.currentFloor →
      (e.tick).travelDirection ≠ .none) := by
  by_cases hcd : 0 < e.boardingCountdown
  · have hfl : (e.tick).currentFloor = e.currentFloor := by
      unfold Elevator.tick
      rw [if_pos hcd]
      dsimp only
      split
      · split
        · split <;> rfl
        · split <;> rfl
      · rfl
    rw [hfl]
    simp
  · unfold Elevator.tick
    rw [if_neg hcd]
    cases hdir : e.travelDirection with
    | none => simp
    | up =>
      refine ⟨moveStep_floor e .up, fun _ => ?_⟩
      rw [moveStep_dir, hdir]
      simp
    | down =>
      refine ⟨moveStep_floor e .down, fun _ => ?_⟩
      rw [moveStep_dir, hdir]
      simp

/-- Reading `l.map Elevator.tick` at `j`: in range it is the tick of the old
entry; out of range both reads give `default`. -/
theorem getD_map_tick :
    ∀ (l : List Elevator) (j : Nat),
      (l.map Elevator.tick).getD j default = Elevator.tick (l.getD j default) ∨
      ((l.map Elevator.tick).getD j default = default ∧
        l.getD j default = default) := by
  intro l
  induction l with
  | nil => intro j; right; exact ⟨rfl, rfl⟩
  | cons e es ih =>
    intro j
    cases j with
    | zero => left; rfl
    | succ j' => simpa [List.getD_cons_succ] using ih j'

/-- The `hold()` update of the fulfilled winner changes no car's id,
direction or floor. -/
theorem holdUpdate_projections (es : List Elevator) (i j : Nat) :
    ((updateAt es i Elevator.hold).getD j default).id = (es.getD j default).id ∧
    ((updateAt es i Elevator.hold).getD j default).travelDirection
      = (es.getD j default).travelDirection ∧
    ((updateAt es i Elevator.hold).getD j default).currentFloor
      = (es.getD j default).currentFloor := by
  rcases getD_updateAt Elevator.hold es i j with h | ⟨_, _, h⟩ <;> rw [h]
  · exact ⟨rfl, rfl, rfl⟩
  · exact hold_projections _

/-- Per-car invariant of the nudge half of the loop body: ids and directions
are untouched; a car whose id is already in `moved` keeps its floor; a car
whose floor changes was idle, moved at most one floor, and has its id
recorded in the returned `moved` list; and `moved` only grows. -/
theorem nudgeStep_cars (es1 : List Elevator) (mv : List Int) (fl : Int) (bi : Nat) :
    (nudgeStep es1 mv fl bi).1.length = es1.length ∧
    (∀ m ∈ mv, m ∈ (nudgeStep es1 mv fl bi).2) ∧
    ∀ j : Nat,
      ((nudgeStep es1 mv fl bi).1.getD j default).id = (es1.getD j default).id ∧
      ((nudgeStep es1 mv fl bi).1.getD j default).travelDirection
        = (es1.getD j default).travelDirection ∧
      ((es1.getD j default).id ∈ mv →
        ((nudgeStep es1 mv fl bi).1.getD j default).currentFloor
          = (es1.getD j default).currentFloor) ∧
      (((nudgeStep es1 mv fl bi).1.getD j default).currentFloor
          ≠ (es1.getD j default).currentFloor →
        (es1.getD j default).travelDirection = .none ∧
        |((nudgeStep es1 mv fl bi).1.getD j default).currentFloor
          - (es1.getD j default).currentFloor| ≤ 1 ∧
        (es1.getD j default).id ∈ (nudgeStep es1 mv fl bi).2) := by
  unfold nudgeStep
  dsimp only
  by_cases hc : (es1.getD bi default).travelDirection = .none ∧
      (es1.getD bi default).id ∉ mv
  · rw [if_pos hc]
    refine ⟨updateAt_length _ es1 bi, fun m hm => List.mem_append_left _ hm, ?_⟩
    intro j
    rcases getD_updateAt (fun e => e.moveCloserToFloor fl) es1 bi j
      with h | ⟨hji, hbi, h⟩
    · rw [h]
      exact ⟨rfl, rfl, fun _ => rfl, fun hch => absurd rfl hch⟩
    · subst hji
      rw [h]
      refine ⟨moveCloser_id _ _, moveCloser_dir _ _, ?_, ?_⟩
      · intro hm
        exact absurd hm hc.2
      · intro hch
        rcases moveCloser_floor (es1.getD j default) fl with hfl | ⟨hdir, habs⟩
        · exact absurd hfl hch
        · exact ⟨hdir, habs,
            List.mem_append_right _ (List.mem_singleton.mpr rfl)⟩
  · rw [if_neg hc]
    exact ⟨rfl, fun m hm => hm, fun j =>
      ⟨rfl, rfl, fun _ => rfl, fun hch => absurd rfl hch⟩⟩

/-- The fulfill half of the loop body (a conditional `hold()` on the
winner) changes no car's id, direction or floor, and keeps the length. -/
theorem fulfillPhase_projections (es : List Elevator) (i : Nat) (c : Prop)
    [Decidable c] :
    (if c then updateAt es i Elevator.hold else es).length = es.length ∧
    ∀ j : Nat,
      (((if c then updateAt es i Elevator.hold else es).getD j default)).id
        = (es.getD j default).id ∧
      (((if c then updateAt es i Elevator.hold else es).getD j
          default)).travelDirection = (es.getD j default).travelDirection ∧
      (((if c then updateAt es i Elevator.hold else es).getD j
          default)).currentFloor = (es.getD j default).currentFloor := by
  by_cases hc : c
  · rw [if_pos hc]
    exact ⟨updateAt_length _ es i, fun j => holdUpdate_projections es i j⟩
  · rw [if_neg hc]
    exact ⟨rfl, fun j => ⟨rfl, rfl, rfl⟩⟩

/-- Per-car invariant of one full matching-loop iteration: composition of
`fulfillPhase_projections` and `nudgeStep_cars`. -/
theorem matchingStep_cars (es : List Elevator) (mv : List Int)
    (r : ElevatorRequest) :
    (matchingStep es mv r).1.length = es.length ∧
    (∀ m ∈ mv, m ∈ (matchingStep es mv r).2.1) ∧
    ∀ j : Nat,
      ((matchingStep es mv r).1.getD j default).id = (es.getD j default).id ∧
      ((matchingStep es mv r).1.getD j default).travelDirection
        = (es.getD j default).travelDirection ∧
      ((es.getD j default).id ∈ mv →
        ((matchingStep es mv r).1.getD j default).currentFloor
          = (es.getD j default).currentFloor) ∧
      (((matchingStep es mv r).1.getD j default).currentFloor
          ≠ (es.getD j default).currentFloor →
        (es.getD j default).travelDirection = .none ∧
        |((matchingStep es mv r).1.getD j default).currentFloor
          - (es.getD j default).currentFloor| ≤ 1 ∧
        (es.getD j default).id ∈ (matchingStep es mv r).2.1) := by
  have hph := fulfillPhase_projections es (selectBest r.floor r.direction es).1
    ((selectBest r.floor r.direction es).2 = 0)
  have hng := nudgeStep_cars
    (if (selectBest r.floor r.direction es).2 = 0 then
      updateAt es (selectBest r.floor r.direction es).1 Elevator.hold
     else es)
    mv r.floor (selectBest r.floor r.direction es).1
  have hproj1 : (matchingStep es mv r).1
      = (nudgeStep
          (if (selectBest r.floor r.direction es).2 = 0 then
            updateAt es (selectBest r.floor r.direction es).1 Elevator.hold
           else es)
          mv r.floor (selectBest r.floor r.direction es).1).1 := rfl
  have hproj2 : (matchingStep es mv r).2.1
      = (nudgeStep
          (if (selectBest r.floor r.direction es).2 = 0 then
            updateAt es (selectBest r.floor r.direction es).1 Elevator.hold
           else es)
          mv r.floor (selectBest r.floor r.direction es).1).2 := rfl
  rw [hproj1, hproj2]
  obtain ⟨hlen1, hpr⟩ := hph
  obtain ⟨hlen2, hmono, hjs⟩ := hng
  refine ⟨hlen2.trans hlen1, hmono, ?_⟩
  intro j
  obtain ⟨hida, hdira, hfla⟩ := hpr j
  obtain ⟨hidb, hdirb, hmvb, hchb⟩ := hjs j
  refine ⟨hidb.trans hida, hdirb.trans hdira, ?_, ?_⟩
  · intro hm
    have hm1 : (((if (selectBest r.floor r.direction es).2 = 0 then
        updateAt es (selectBest r.floor r.direction es).1 Elevator.hold
      else es).getD j default)).id ∈ mv := by
      rw [hida]; exact hm
    rw [hmvb hm1, hfla]
  · intro hch
    have hch1 : (((nudgeStep
        (if (selectBest r.floor r.direction es).2 = 0 then
          updateAt es (selectBest r.floor r.direction es).1 Elevator.hold
         else es)
        mv r.floor (selectBest r.floor r.direction es).1).1.getD j
          default)).currentFloor
        ≠ (((if (selectBest r.floor r.direction es).2 = 0 then
            updateAt es (selectBest r.floor r.direction es).1 Elevator.hold
           else es).getD j default)).currentFloor := by
      rw [hfla]; exact hch
    obtain ⟨ha, hb, hcm⟩ := hchb hch1
    refine ⟨hdira ▸ ha, ?_, ?_⟩
    · rw [← hfla]; exact hb
    · rw [← hida]; exact hcm

/-- Per-car invariant of the whole matching pass, by induction over the
pending requests: ids and directions are untouched; a car whose id enters
the pass in `moved` keeps its floor; a car whose floor changes entered the
pass idle, moved at most one floor in total, and has its id in the final
`moved` list. -/
theorem matchingPass_cars :
    ∀ (rs : List ElevatorRequest) (es : List Elevator) (mv : List Int),
      (matchingPass es mv rs).1.length = es.length ∧
      (∀ m ∈ mv, m ∈ (matchingPass es mv rs).2.1) ∧
      ∀ j : Nat,
        ((matchingPass es mv rs).1.getD j default).id = (es.getD j default).id ∧
        ((matchingPass es mv rs).1.getD j default).travelDirection
          = (es.getD j default).travelDirection ∧
        ((es.getD j default).id ∈ mv →
          ((matchingPass es mv rs).1.getD j default).currentFloor
            = (es.getD j default).currentFloor) ∧
        (((matchingPass es mv rs).1.getD j default).currentFloor
            ≠ (es.getD j default).currentFloor →
          (es.getD j default).travelDirection = .none ∧
          |((matchingPass es mv rs).1.getD j default).currentFloor
            - (es.getD j default).currentFloor| ≤ 1 ∧
          (es.getD j default).id ∈ (matchingPass es mv rs).2.1) := by
  intro rs
  induction rs with
  | nil =>
    intro es mv
    exact ⟨rfl, fun m hm => hm, fun j =>
      ⟨rfl, rfl, fun _ => rfl, fun h => absurd rfl h⟩⟩
  | cons r rest ih =>
    intro es mv
    have hstep := matchingStep_cars es mv r
    have htail := ih (matchingStep es mv r).1 (matchingStep es mv r).2.1
    have hp1 : (matchingPass es mv (r :: rest)).1
        = (matchingPass (matchingStep es mv r).1 (matchingStep es mv r).2.1
            rest).1 := rfl
    have hp2 : (matchingPass es mv (r :: rest)).2.1
        = (matchingPass (matchingStep es mv r).1 (matchingStep es mv r).2.1
            rest).2.1 := rfl
    rw [hp1, hp2]
    obtain ⟨hlen1, hmono1, hjs1⟩ := hstep
    obtain ⟨hlen2, hmono2, hjs2⟩ := htail
    refine ⟨hlen2.trans hlen1, fun m hm => hmono2 m (hmono1 m hm), ?_⟩
    intro j
    obtain ⟨hid1, hdir1, hmv1, hch1⟩ := hjs1 j
    obtain ⟨hid2, hdir2, hmv2, hch2⟩ := hjs2 j
    refine ⟨hid2.trans hid1, hdir2.trans hdir1, ?_, ?_⟩
    · intro hm
      have hm1 : ((matchingStep es mv r).1.getD j default).id
          ∈ (matchingStep es mv r).2.1 := by
        rw [hid1]; exact hmono1 _ hm
      rw [hmv2 hm1, hmv1 hm]
    · intro hch
      by_cases hfl1 : ((matchingStep es mv r).1.getD j default).currentFloor
          = (es.getD j default).currentFloor
      · have hch2' : ((matchingPass (matchingStep es mv r).1
            (matchingStep es mv r).2.1 rest).1.getD j default).currentFloor
            ≠ ((matchingStep es mv r).1.getD j default).currentFloor := by
          rw [hfl1]; exact hch
        obtain ⟨ha, hb, hcm⟩ := hch2 hch2'
        refine ⟨hdir1 ▸ ha, ?_, ?_⟩
        · rw [← hfl1]; exact hb
        · rw [← hid1]; exact hcm
      · obtain ⟨ha, hb, hcm⟩ := hch1 hfl1
        have hin : ((matchingStep es mv r).1.getD j default).id
            ∈ (matchingStep es mv r).2.1 := by
          rw [hid1]; exact hcm
        have hkeep := hmv2 hin
        refine ⟨ha, ?_, ?_⟩
        · rw [hkeep]; exact hb
        · exact hmono2 _ hcm

/-- Claim C10: within one iteration of the scheduler's tick every car moves
at most one floor: a car moved by the per-car movement phase keeps a
non-`None` direction and so is never nudged by the matching pass, and a car
nudged once has its id recorded in `moved` and is never nudged again. -/
theorem tick_moves_each_car_at_most_one_floor (s : ElevatorSystem) (j : Nat) :
    |((s.tickOnce).elevators.getD j default).currentFloor
      - (s.elevators.getD j default).currentFloor| ≤ 1 := by
  have hout : (s.tickOnce).elevators
      = (matchingPass (s.elevators.map Elevator.tick) [] s.requests).1 := rfl
  rw [hout]
  obtain ⟨_, _, hjs⟩ :=
    matchingPass_cars s.requests (s.elevators.map Elevator.tick) []
  obtain ⟨hid, hdir, hmv, hch⟩ := hjs j
  rcases getD_map_tick s.elevators j with h1 | ⟨h1a, h1b⟩
  · by_cases hmove : (Elevator.tick (s.elevators.getD j default)).currentFloor
        = (s.elevators.getD j default).currentFloor
    · by_cases hc : ((matchingPass (s.elevators.map Elevator.tick) []
          s.requests).1.getD j default).currentFloor
          = ((s.elevators.map Elevator.tick).getD j default).currentFloor
      · rw [hc, h1, hmove]
        simp
      · obtain ⟨_, hb, _⟩ := hch hc
        rw [h1, hmove] at hb
        exact hb
    · obtain ⟨habs, hdirne⟩ := tick_floor_spec (s.elevators.getD j default)
      by_cases hc : ((matchingPass (s.elevators.map Elevator.tick) []
          s.requests).1.getD j default).currentFloor
          = ((s.elevators.map Elevator.tick).getD j default).currentFloor
      · rw [hc, h1]
        exact habs
      · obtain ⟨ha, _, _⟩ := hch hc
        rw [h1] at ha
        exact absurd ha (hdirne hmove)
  · by_cases hc : ((matchingPass (s.elevators.map Elevator.tick) []
        s.requests).1.getD j default).currentFloor
        = ((s.elevators.map Elevator.tick).getD j default).currentFloor
    · rw [hc, h1a, h1b]
      simp
    · obtain ⟨_, hb, _⟩ := hch hc
      rw [h1a] at hb
      rw [h1b]
      exact hb

end Elevators
